import Mathlib

/-!
Verification development for the request-construction layer of the
mailgun HTTP API client (`src/lib/request.ts`).

The TypeScript source is shallowly embedded: JavaScript values become the
inductive type `JSValue`, JavaScript objects become ordered association
lists `List (String × JSValue)` with unique keys (as JS objects have),
object spread / property assignment / `delete` become the explicit list
operations `objMerge`, `objSet`, `objDelete`, and the asynchronous
response handling becomes the pure function `Request.handleResponse`
returning `Except`.  Streams are modelled by the `JSValue.stream`
constructor carrying its chunks (already decoded to text); in the source a
stream is duck-typed by a callable `pipe` property and no other modelled
value carries one.  Function-valued properties do not occur in the
modelled fragment, so only `stream` satisfies the `isStream` test.
-/

set_option autoImplicit false

/-- A JavaScript value, as used by `src/lib/request.ts`.  `num` models JS
numbers by integers (no float arithmetic occurs in the source), `obj`
models plain objects as ordered field lists, and `stream` models a
readable stream by the list of text chunks it will emit. -/
inductive JSValue where
  | null
  | undefined
  | bool (b : Bool)
  | num (n : Int)
  | str (s : String)
  | arr (elems : List JSValue)
  | obj (fields : List (String × JSValue))
  | stream (chunks : List String)

/-- JavaScript truthiness: `null`, `undefined`, `false`, `0` and `""` are
falsy; every other modelled value (including every object, array and
stream) is truthy. -/
def truthy : JSValue → Bool
  | .null => false
  | .undefined => false
  | .bool b => b
  | .num n => n != 0
  | .str s => !s.isEmpty
  | .arr _ => true
  | .obj _ => true
  | .stream _ => true

/-- `typeof v === 'object'` for the modelled values (`null`, arrays, plain
objects and streams are of type `object`). -/
def isObjectType : JSValue → Bool
  | .null => true
  | .arr _ => true
  | .obj _ => true
  | .stream _ => true
  | _ => false

/-- `isStream` from `src/lib/request.ts`:
`typeof attachment === 'object' && typeof attachment.pipe === 'function'`.
In the model only `stream` values carry a callable `pipe`. -/
def isStream : JSValue → Bool
  | .stream _ => true
  | _ => false

/-- Loose equality with `null` (`value == null` in JS), true exactly for
`null` and `undefined`. -/
def isNullish : JSValue → Bool
  | .null => true
  | .undefined => true
  | _ => false

/-- First-occurrence lookup of a key in an ordered field list (JS property
read; field lists modelling JS objects have unique keys). -/
def objLookup {α : Type} (fields : List (String × α)) (k : String) : Option α :=
  (fields.find? (fun kv => kv.1 == k)).map (fun kv => kv.2)

/-- Whether a key is present in a field list (`k in o` in JS). -/
def objHasKey {α : Type} (fields : List (String × α)) (k : String) : Bool :=
  fields.any (fun kv => kv.1 == k)

/-- JS property deletion `delete o[k]`: remove the key, keeping the order
of the remaining fields. -/
def objDelete {α : Type} (fields : List (String × α)) (k : String) : List (String × α) :=
  fields.filter (fun kv => !(kv.1 == k))

/-- JS property assignment `o[k] = v`: update the existing entry in place,
or append a fresh key at the end. -/
def objSet {α : Type} : List (String × α) → String → α → List (String × α)
  | [], k, v => [(k, v)]
  | kv :: rest, k, v => if kv.1 == k then (k, v) :: rest else kv :: objSet rest k v

/-- JS object spread `{...a, ...b}`: keys of `a` keep their position (with
`b`'s value where `b` overrides them), followed by the keys of `b` that
are new, in `b`'s order. -/
def objMerge {α : Type} (a b : List (String × α)) : List (String × α) :=
  (a.map (fun kv =>
    match objLookup b kv.1 with
    | some v => (kv.1, v)
    | none => kv))
  ++ b.filter (fun kv => !objHasKey a kv.1)

/-- Field read defaulting to `undefined`, as a JS property access on an
object returns `undefined` for an absent key. -/
def objGetD (fields : List (String × JSValue)) (k : String) : JSValue :=
  (objLookup fields k).getD JSValue.undefined

/-- JS property access `v[k]` on an arbitrary value: named properties of
the modelled non-object values are `undefined`. -/
def objGet (v : JSValue) (k : String) : JSValue :=
  match v with
  | .obj fields => objGetD fields k
  | _ => JSValue.undefined

/-- The character table of standard base64. -/
def base64Char (n : Nat) : Char :=
  "ABCDEFGHIJKLMNOPQRSTUVWXYZabcdefghijklmnopqrstuvwxyz0123456789+/".toList.getD n 'A'

/-- Standard base64 of a byte sequence, with `=` padding. -/
def base64EncodeBytes : List Nat → String
  | [] => ""
  | [a] =>
    let a := a % 256
    String.mk [base64Char (a / 4), base64Char (a % 4 * 16), '=', '=']
  | [a, b] =>
    let a := a % 256
    let b := b % 256
    String.mk [base64Char (a / 4), base64Char (a % 4 * 16 + b / 16), base64Char (b % 16 * 4), '=']
  | a :: b :: c :: rest =>
    let a := a % 256
    let b := b % 256
    let c := c % 256
    String.mk [base64Char (a / 4), base64Char (a % 4 * 16 + b / 16),
      base64Char (b % 16 * 4 + c / 64), base64Char (c % 64)]
    ++ base64EncodeBytes rest

/-- The `btoa` collaborator: base64 of the latin1 bytes of the input
string (character codes truncated to one byte). -/
def btoa (s : String) : String :=
  base64EncodeBytes (s.toList.map (fun c => c.toNat % 256))

mutual

/-- JS `ToString` coercion of the modelled values, as applied by
`URLSearchParams.append` to its value argument. -/
def jsToString : JSValue → String
  | .null => "null"
  | .undefined => "undefined"
  | .bool b => if b then "true" else "false"
  | .num n => toString n
  | .str s => s
  | .arr xs => jsArrayToString xs
  | .obj _ => "[object Object]"
  | .stream _ => "[object Object]"

/-- `Array.prototype.toString`: elements joined by commas, with `null` and
`undefined` elements rendered as the empty string. -/
def jsArrayToString : List JSValue → String
  | [] => ""
  | x :: rest =>
    (match x with
     | .null => ""
     | .undefined => ""
     | v => jsToString v)
    ++ (if rest.isEmpty then "" else "," ++ jsArrayToString rest)

end

/-- `Object.entries` for the modelled values: fields of an object, indexed
elements of an array or string, nothing for other values. -/
def jsEntries : JSValue → List (String × JSValue)
  | .obj fields => fields
  | .arr xs => xs.enum.map (fun p => (toString p.1, p.2))
  | .str s => s.toList.enum.map (fun p => (toString p.1, JSValue.str (String.singleton p.2)))
  | _ => []

/-- Object spread of an arbitrary value `{...v}`: own enumerable
properties of objects, arrays and strings; nothing for the other modelled
values (spreading `null`/`undefined`/numbers/booleans adds no keys). -/
def spreadJS : JSValue → List (String × JSValue)
  | .obj fields => fields
  | .arr xs => xs.enum.map (fun p => (toString p.1, p.2))
  | .str s => s.toList.enum.map (fun p => (toString p.1, JSValue.str (String.singleton p.2)))
  | _ => []

/-- Spread of an optional value (`{...o?.k}` where the key may be
absent): an absent value contributes no fields. -/
def spreadOpt : Option JSValue → List (String × JSValue)
  | some v => spreadJS v
  | none => []

/-- `Object.getOwnPropertyNames(v).length` for the modelled values: the
number of distinct keys of an object; indexed elements plus the `length`
property for arrays and strings; none for the rest. -/
def ownPropCount : JSValue → Nat
  | .obj fields => (fields.map Prod.fst).dedup.length
  | .arr xs => xs.length + 1
  | .str s => s.length + 1
  | _ => 0

/-- ASCII upper-casing, modelling `method.toLocaleUpperCase()`. -/
def toUpperStr (s : String) : String :=
  s.map Char.toUpper

/-- The immutable per-instance configuration of `Request` set by its
constructor (`this.username`, `this.key`, `this.url`, `this.timeout`,
`this.headers`). -/
structure RequestConfig where
  username : String
  key : String
  url : String
  timeout : Int
  headers : List (String × JSValue)

namespace Request

/-- The computed credential `Basic ${Btoa(username + ":" + key)}`. -/
def basicAuth (cfg : RequestConfig) : String :=
  "Basic " ++ btoa (cfg.username ++ ":" ++ cfg.key)

/-- The header merge of `Request.request`:
`{ Authorization: Basic ..., ...this.headers, ...options?.headers }`. -/
def mergedHeaders (cfg : RequestConfig) (inputOptions : List (String × JSValue)) :
    List (String × JSValue) :=
  objMerge
    (objMerge [("Authorization", JSValue.str (basicAuth cfg))] cfg.headers)
    (spreadOpt (objLookup inputOptions "headers"))

/-- The headers handed to the transport: the merged headers, with the
`Content-Type` key deleted outright when its merged value is falsy or
absent (`if (!headers['Content-Type']) delete headers['Content-Type']`). -/
def finalHeaders (cfg : RequestConfig) (inputOptions : List (String × JSValue)) :
    List (String × JSValue) :=
  let headers := mergedHeaders cfg inputOptions
  if truthy (objGetD headers "Content-Type") then headers
  else objDelete headers "Content-Type"

/-- The options bag handed to the transport, after `Request.request` has
deleted the call-level `headers` key, copied the bag, and moved a
non-empty `query` value into `searchParams`
(`params.searchParams = options.query; delete params.query`). -/
def buildParams (inputOptions : List (String × JSValue)) : List (String × JSValue) :=
  let options := objDelete inputOptions "headers"
  let params := options
  match objLookup options "query" with
  | some q =>
    if truthy q && 0 < ownPropCount q then
      objDelete (objSet params "searchParams" q) "query"
    else params
  | none => params

/-- The full option object handed to the `ky` transport call:
`{ method: method.toLocaleUpperCase(), headers, throwHttpErrors: false,
timeout, ...params }`. -/
def kyOptions (cfg : RequestConfig) (method : String)
    (inputOptions : List (String × JSValue)) : List (String × JSValue) :=
  objMerge
    [("method", JSValue.str (toUpperStr method)),
     ("headers", JSValue.obj (finalHeaders cfg inputOptions)),
     ("throwHttpErrors", JSValue.bool false),
     ("timeout", JSValue.num cfg.timeout)]
    (buildParams inputOptions)

/-- The options bag built by `Request.query`: `{ query, ...options }`. -/
def queryOptions (q : JSValue) (options : List (String × JSValue)) :
    List (String × JSValue) :=
  objMerge [("query", q)] options

/-- The options bag built by `Request.command`:
`{ headers: { 'Content-Type': 'application/x-www-form-urlencoded' },
body: data, ...options }`. -/
def commandOptions (data : JSValue) (options : List (String × JSValue)) :
    List (String × JSValue) :=
  objMerge
    [("headers", JSValue.obj [("Content-Type", JSValue.str "application/x-www-form-urlencoded")]),
     ("body", data)]
    options

/-- The call-level params built by `postMulti` and `putMulti`:
`{ headers: { 'Content-Type': null } }`. -/
def multiHeaderParams : List (String × JSValue) :=
  [("headers", JSValue.obj [("Content-Type", JSValue.null)])]

/-- The options bag a `postMulti` call hands to `request` (via `command`),
with the multipart body abstracted as `body`. -/
def postMultiOptions (body : JSValue) : List (String × JSValue) :=
  commandOptions body multiHeaderParams

/-- The options bag a `putMulti` call hands to `request` (via `command`),
with the multipart body abstracted as `body`. -/
def putMultiOptions (body : JSValue) : List (String × JSValue) :=
  commandOptions body multiHeaderParams

/-- `Request.objectToURLSearchParams`: `null` for a falsy argument
(`if (!data) return null`), otherwise the `Object.entries` of the
argument appended in order, values coerced to strings by
`URLSearchParams.append`. -/
def objectToURLSearchParams (data : JSValue) : Option (List (String × String)) :=
  if !truthy data then none
  else some ((jsEntries data).map (fun kv => (kv.1, jsToString kv.2)))

end Request

/-- One field of the multipart container: name, payload, and the options
object passed to `FormData.append` (empty for plain fields, which are
appended without an options argument). -/
abbrev FormEntry := String × JSValue × List (String × JSValue)

/-- `getAttachmentOptions` from `src/lib/request.ts`: empty for values
that are not of type `object` or that are streams; otherwise `filename`
(the given one if truthy, else the literal `"file"`), plus `contentType`
and `knownLength` only when truthy. -/
def getAttachmentOptions (item : JSValue) : List (String × JSValue) :=
  if !isObjectType item || isStream item then []
  else
    (if truthy (objGet item "filename")
      then [("filename", objGet item "filename")]
      else [("filename", JSValue.str "file")])
    ++ (if truthy (objGet item "contentType")
      then [("contentType", objGet item "contentType")] else [])
    ++ (if truthy (objGet item "knownLength")
      then [("knownLength", objGet item "knownLength")] else [])

/-- The payload appended for one attachment/inline spec:
`isStream(item) ? item : item.data`. -/
def attachmentPayload (item : JSValue) : JSValue :=
  if isStream item then item else objGet item "data"

namespace Request

/-- The body of the `reduce` in `Request.createFormData`: appends the
field(s) contributed by one surviving key to the accumulated container. -/
def createFormDataStep (acc : List FormEntry) (kv : String × JSValue) : List FormEntry :=
  if kv.1 == "attachment" || kv.1 == "inline" then
    match kv.2 with
    | .arr items =>
      items.foldl (fun a item => a ++ [(kv.1, attachmentPayload item, getAttachmentOptions item)]) acc
    | v => acc ++ [(kv.1, attachmentPayload v, getAttachmentOptions v)]
  else
    match kv.2 with
    | .arr items => items.foldl (fun a item => a ++ [(kv.1, item, [])]) acc
    | v => if isNullish v then acc else acc ++ [(kv.1, v, [])]

/-- `Request.createFormData`: keys with falsy values are filtered out,
then each surviving key appends its fields in order. -/
def createFormData (data : List (String × JSValue)) : List FormEntry :=
  (data.filter (fun kv => truthy kv.2)).foldl createFormDataStep []

/-- The fields one surviving key contributes, in order: the
specification-level normal form of `createFormDataStep` (proved equal to
it below). -/
def formEntriesFor (kv : String × JSValue) : List FormEntry :=
  if kv.1 == "attachment" || kv.1 == "inline" then
    match kv.2 with
    | .arr items => items.map (fun item => (kv.1, attachmentPayload item, getAttachmentOptions item))
    | v => [(kv.1, attachmentPayload v, getAttachmentOptions v)]
  else
    match kv.2 with
    | .arr items => items.map (fun item => (kv.1, item, []))
    | v => if isNullish v then [] else [(kv.1, v, [])]

end Request

/-- The transport response consumed by the tail of `Request.request`:
`ok`, `status`, `statusText`, the raw `body` (possibly a stream), and
`json` standing for the value `response.json()` resolves to. -/
structure TransportResponse where
  ok : Bool
  status : Int
  statusText : String
  body : JSValue
  json : JSValue

/-- The success envelope `{ body, status }` returned by
`Request.request`. -/
structure APIResponse where
  status : Int
  body : JSValue

/-- The data of the `APIError` thrown by `Request.request`:
`{ status, statusText, body: { message } }`. -/
structure APIErrorData where
  status : Int
  statusText : String
  message : JSValue

/-- `streamToString` from `src/lib/request.ts`: all chunks of the stream
concatenated and decoded as UTF-8 text (chunks are modelled as the text
they decode to). -/
def streamToString (chunks : List String) : String :=
  String.join chunks

/-- The chunks of a stream value (empty for non-streams; only applied to
streams in the source). -/
def streamChunks : JSValue → List String
  | .stream chunks => chunks
  | _ => []

namespace Request

/-- The response normalization tail of `Request.request`: on a response
whose `ok` flag is false, throw an `APIError` whose message is the
drained text of a streamed body, or the parsed JSON body otherwise; on a
response whose `ok` flag is true, return `{ body: parsed JSON, status }`. -/
def handleResponse (r : TransportResponse) : Except APIErrorData APIResponse :=
  if !r.ok then
    let message :=
      if truthy r.body && isStream r.body
        then JSValue.str (streamToString (streamChunks r.body))
        else r.json
    Except.error ⟨r.status, r.statusText, message⟩
  else Except.ok ⟨r.status, r.json⟩

end Request

/-!
## Heap model

`Request.request` manipulates its option bags imperatively (`delete
options.headers`, `params.searchParams = ...`).  To state that it never
mutates the caller-supplied objects, those lines are re-embedded over an
explicit heap: objects live at addresses, object-valued fields hold
references, and every mutation is a store.  The pure definitions above
describe the values produced; `Request.requestPrepare` below describes
the stores performed.
-/

/-- A heap value: an immutable value, or a reference to a heap object. -/
inductive HVal where
  | prim (v : JSValue)
  | ref (addr : Nat)

/-- A heap: the next fresh address and the contents of each allocated
address (an ordered field list). -/
structure Heap where
  next : Nat
  mem : Nat → Option (List (String × HVal))

/-- Read the object at an address (unallocated addresses read as empty). -/
def Heap.read (h : Heap) (a : Nat) : List (String × HVal) :=
  (h.mem a).getD []

/-- Allocate a fresh object, returning its address. -/
def Heap.alloc (h : Heap) (fields : List (String × HVal)) : Nat × Heap :=
  (h.next, ⟨h.next + 1, fun x => if x = h.next then some fields else h.mem x⟩)

/-- Overwrite the object at an address. -/
def Heap.write (h : Heap) (a : Nat) (fields : List (String × HVal)) : Heap :=
  ⟨h.next, fun x => if x = a then some fields else h.mem x⟩

/-- Truthiness of a heap value: references (objects) are always truthy. -/
def hTruthy : HVal → Bool
  | .prim v => truthy v
  | .ref _ => true

/-- Object spread of a heap value: a reference spreads the fields of the
object it points to; an immutable object/array/string value spreads its
own enumerable properties (as immutable values). -/
def heapSpread (h : Heap) : HVal → List (String × HVal)
  | .ref a => h.read a
  | .prim v => (spreadJS v).map (fun kv => (kv.1, HVal.prim kv.2))

/-- Spread of an optional heap value (`{...o?.k}`). -/
def heapSpreadOpt (h : Heap) : Option HVal → List (String × HVal)
  | some v => heapSpread h v
  | none => []

/-- Field read defaulting to `undefined`, on heap field lists. -/
def hGetD (fields : List (String × HVal)) (k : String) : HVal :=
  (objLookup fields k).getD (HVal.prim JSValue.undefined)

/-- `Object.getOwnPropertyNames(v).length` for a heap value. -/
def hOwnCount (h : Heap) : HVal → Nat
  | .ref a => ((h.read a).map Prod.fst).dedup.length
  | .prim v => ownPropCount v

namespace Request

/-- The option-preparation phase of `Request.request` (source lines
72–93) over the explicit heap: copy the caller's bag
(`const options = {...inputOptions}`), build the merged header object,
`delete options.headers`, delete a falsy `Content-Type`, copy the bag
again (`const params = {...options}`), and move a non-empty `query` into
`searchParams`.  Returns the addresses of the headers and params objects
and the final heap.  `cfgHeaders` is the value of `this.headers` and
`auth` the computed Authorization value. -/
def requestPrepare (h0 : Heap) (cfgHeaders : HVal) (inputAddr : Nat) (auth : HVal) :
    Nat × Nat × Heap :=
  let p1 := h0.alloc (h0.read inputAddr)
  let optionsA := p1.1
  let h1 := p1.2
  let hdrFields :=
    objMerge
      (objMerge [("Authorization", auth)] (heapSpread h1 cfgHeaders))
      (heapSpreadOpt h1 (objLookup (h1.read optionsA) "headers"))
  let p2 := h1.alloc hdrFields
  let headersA := p2.1
  let h2 := p2.2
  let h3 := h2.write optionsA (objDelete (h2.read optionsA) "headers")
  let h4 :=
    if hTruthy (hGetD (h3.read headersA) "Content-Type") then h3
    else h3.write headersA (objDelete (h3.read headersA) "Content-Type")
  let p3 := h4.alloc (h4.read optionsA)
  let paramsA := p3.1
  let h5 := p3.2
  let h6 :=
    match objLookup (h5.read optionsA) "query" with
    | some q =>
      if hTruthy q && 0 < hOwnCount h5 q then
        let h5a := h5.write paramsA (objSet (h5.read paramsA) "searchParams" q)
        h5a.write paramsA (objDelete (h5a.read paramsA) "query")
      else h5
    | none => h5
  (headersA, paramsA, h6)

end Request

/-!
## Supporting lemmas
-/

theorem objLookup_nil {α : Type} (k : String) :
    objLookup ([] : List (String × α)) k = none := rfl

theorem objLookup_cons {α : Type} (kv : String × α) (rest : List (String × α)) (k : String) :
    objLookup (kv :: rest) k = if kv.1 == k then some kv.2 else objLookup rest k := by
  cases h : kv.1 == k <;> simp [objLookup, List.find?_cons, h]

theorem objLookup_append {α : Type} (a b : List (String × α)) (k : String) :
    objLookup (a ++ b) k = (objLookup a k <|> objLookup b k) := by
  induction a with
  | nil => simp [objLookup]
  | cons kv rest ih =>
    cases h : kv.1 == k <;> simp [objLookup_cons, h, ih]

theorem objHasKey_iff_lookup {α : Type} (a : List (String × α)) (k : String) :
    objHasKey a k = (objLookup a k).isSome := by
  induction a with
  | nil => simp [objHasKey, objLookup]
  | cons kv rest ih =>
    cases h : kv.1 == k <;> simp [objHasKey, objLookup_cons, h] <;>
      simpa [objHasKey] using ih

theorem objLookup_mergeMap {α : Type} (a b : List (String × α)) (k : String) :
    objLookup (a.map (fun kv =>
        match objLookup b kv.1 with
        | some v => (kv.1, v)
        | none => kv)) k
      = match objLookup a k with
        | some va =>
          match objLookup b k with
          | some vb => some vb
          | none => some va
        | none => none := by
  induction a with
  | nil => simp [objLookup]
  | cons kv rest ih =>
    by_cases h : kv.1 = k
    · subst h
      cases hb : objLookup b kv.1 <;>
        simp [objLookup_cons, hb]
    · have hbeq : (kv.1 == k) = false := by simp [h]
      cases hb : objLookup b kv.1 <;>
        simp [objLookup_cons, hbeq, hb, ih]

theorem objLookup_filterNot {α : Type} (a b : List (String × α)) (k : String) :
    objLookup (b.filter (fun kv => !objHasKey a kv.1)) k
      = if objHasKey a k then none else objLookup b k := by
  induction b with
  | nil => simp [objLookup]
  | cons kv rest ih =>
    by_cases h : kv.1 = k
    · subst h
      cases ha : objHasKey a kv.1 <;>
        simp [List.filter_cons, ha, objLookup_cons, ih]
    · have hbeq : (kv.1 == k) = false := by simp [h]
      cases ha : objHasKey a kv.1 <;>
        simp [List.filter_cons, ha, objLookup_cons, hbeq, ih]

/-- Lookup in a JS object spread `{...a, ...b}`: `b`'s value wins, `a`'s
value is the fallback. -/
theorem objLookup_objMerge {α : Type} (a b : List (String × α)) (k : String) :
    objLookup (objMerge a b) k = (objLookup b k <|> objLookup a k) := by
  unfold objMerge
  rw [objLookup_append, objLookup_mergeMap, objLookup_filterNot, objHasKey_iff_lookup]
  cases ha : objLookup a k <;> cases hb : objLookup b k <;> simp

theorem objSet_cons {α : Type} (kv : String × α) (rest : List (String × α)) (k0 : String)
    (v0 : α) :
    objSet (kv :: rest) k0 v0
      = if kv.1 = k0 then (k0, v0) :: rest else kv :: objSet rest k0 v0 := by
  by_cases h : kv.1 = k0 <;> simp [objSet, h]

/-- Lookup after a JS property assignment `o[k0] = v0`. -/
theorem objLookup_objSet {α : Type} (fields : List (String × α)) (k0 : String) (v0 : α)
    (k : String) :
    objLookup (objSet fields k0 v0) k = if k = k0 then some v0 else objLookup fields k := by
  induction fields with
  | nil =>
    by_cases h : k = k0 <;> simp [objSet, objLookup_cons, objLookup_nil, beq_iff_eq, h] <;>
      simp [Ne.symm h]
  | cons kv rest ih =>
    by_cases h1 : kv.1 = k0 <;>
      by_cases h2 : k = k0 <;>
        by_cases h3 : kv.1 = k <;>
          simp_all [objSet_cons, objLookup_cons, beq_iff_eq]

theorem objDelete_cons {α : Type} (kv : String × α) (rest : List (String × α)) (k0 : String) :
    objDelete (kv :: rest) k0
      = if kv.1 = k0 then objDelete rest k0 else kv :: objDelete rest k0 := by
  by_cases h : kv.1 = k0 <;> simp [objDelete, List.filter_cons, h]

/-- Lookup after a JS property deletion `delete o[k0]`. -/
theorem objLookup_objDelete {α : Type} (fields : List (String × α)) (k0 : String) (k : String) :
    objLookup (objDelete fields k0) k = if k = k0 then none else objLookup fields k := by
  induction fields with
  | nil => simp [objDelete, objLookup]
  | cons kv rest ih =>
    by_cases h1 : kv.1 = k0 <;>
      by_cases h2 : k = k0 <;>
        by_cases h3 : kv.1 = k <;>
          simp_all [objDelete_cons, objLookup_cons, beq_iff_eq]

theorem foldl_append_push {α β : Type} (g : α → β) (l : List α) (acc : List β) :
    l.foldl (fun a x => a ++ [g x]) acc = acc ++ l.map g := by
  induction l generalizing acc with
  | nil => simp
  | cons x rest ih => simp [ih]

/-- One step of the `createFormData` reduce appends exactly the fields
`formEntriesFor` describes. -/
theorem createFormDataStep_eq (acc : List FormEntry) (kv : String × JSValue) :
    Request.createFormDataStep acc kv = acc ++ Request.formEntriesFor kv := by
  rcases kv with ⟨k, v⟩
  cases h : (k == "attachment" || k == "inline") <;>
    cases v <;>
      simp [Request.createFormDataStep, Request.formEntriesFor, h, foldl_append_push] <;>
        split <;> simp

theorem foldl_createFormDataStep (l : List (String × JSValue)) (acc : List FormEntry) :
    l.foldl Request.createFormDataStep acc
      = acc ++ (l.map Request.formEntriesFor).flatten := by
  induction l generalizing acc with
  | nil => simp
  | cons kv rest ih => simp [createFormDataStep_eq, ih]

/-- Normal form of `createFormData`: falsy-valued keys are dropped, each
surviving key contributes its `formEntriesFor` fields, in order. -/
theorem createFormData_eq (data : List (String × JSValue)) :
    Request.createFormData data
      = ((data.filter (fun kv => truthy kv.2)).map Request.formEntriesFor).flatten := by
  unfold Request.createFormData
  rw [foldl_createFormDataStep]
  simp

theorem createFormData_append_single (data : List (String × JSValue)) (k : String)
    (v : JSValue) :
    Request.createFormData (data ++ [(k, v)])
      = Request.createFormData data ++ (if truthy v then Request.formEntriesFor (k, v) else []) := by
  cases h : truthy v <;>
    simp [createFormData_eq, List.filter_append, h]

theorem objLookup_eq_none_of_hasKey {α : Type} (a : List (String × α)) (k : String)
    (h : objHasKey a k = false) : objLookup a k = none := by
  rw [objHasKey_iff_lookup] at h
  cases hl : objLookup a k <;> simp_all

theorem truthy_not_nullish (v : JSValue) (h : truthy v = true) : isNullish v = false := by
  cases v <;> simp_all [truthy, isNullish]

/-- The options bag handed to the transport never contains a `headers`
key: `Request.request` deletes it before spreading the bag. -/
theorem buildParams_lookup_headers (io : List (String × JSValue)) :
    objLookup (Request.buildParams io) "headers" = none := by
  unfold Request.buildParams
  dsimp only
  split
  · split <;> simp [objLookup_objDelete, objLookup_objSet]
  · simp [objLookup_objDelete]

/-!
## Claim theorems
-/

/-- C6: for every non-null flat mapping with N entries,
`objectToURLSearchParams` produces exactly N key=value pairs in the
mapping's insertion order (values coerced to strings); for a `null` or
`undefined` input it produces no body at all (`none`), distinct from an
empty-but-present body. -/
theorem objectToURLSearchParams_spec (fs : List (String × JSValue)) :
    Request.objectToURLSearchParams (JSValue.obj fs)
        = some (fs.map (fun kv => (kv.1, jsToString kv.2)))
      ∧ (fs.map (fun kv => (kv.1, jsToString kv.2))).length = fs.length
      ∧ Request.objectToURLSearchParams JSValue.null = none
      ∧ Request.objectToURLSearchParams JSValue.undefined = none := by
  refine ⟨?_, ?_, rfl, rfl⟩ <;>
    simp [Request.objectToURLSearchParams, truthy, jsEntries]

/-- C5: for a call to `query` (and its get/head/options wrappers) whose
options bag does not itself override the `query` key: a query mapping
with at least one own enumerable key is moved into `searchParams` and the
generic `query` key is removed from the bag handed to the transport,
while a mapping with zero own enumerable keys attaches no `searchParams`
entry at all. -/
theorem query_searchParams_move (q : JSValue) (qfs : List (String × JSValue))
    (opts : List (String × JSValue))
    (hq : q = JSValue.obj qfs) (hno : objHasKey opts "query" = false) :
    (qfs ≠ [] →
      objLookup (Request.buildParams (Request.queryOptions q opts)) "searchParams" = some q
        ∧ objHasKey (Request.buildParams (Request.queryOptions q opts)) "query" = false)
    ∧ (qfs = [] → objHasKey opts "searchParams" = false →
        objHasKey (Request.buildParams (Request.queryOptions q opts)) "searchParams" = false) := by
  have hq0 : objLookup (Request.queryOptions q opts) "query" = some q := by
    rw [Request.queryOptions, objLookup_objMerge, objLookup_eq_none_of_hasKey opts "query" hno]
    rfl
  have hq1 : objLookup (objDelete (Request.queryOptions q opts) "headers") "query" = some q := by
    rw [objLookup_objDelete]
    simpa using hq0
  constructor
  · intro hne
    have hcount : 0 < ownPropCount q := by
      subst hq
      have : (qfs.map Prod.fst).dedup ≠ [] := by
        simp [List.dedup_eq_nil, hne]
      simpa [ownPropCount] using List.length_pos.mpr this
    have hcond : (truthy q && decide (0 < ownPropCount q)) = true := by
      subst hq
      simp [truthy, hcount]
    rw [Request.buildParams]
    rw [hq1]
    simp only [hcond, if_true]
    constructor
    · rw [objLookup_objDelete]
      simp [objLookup_objSet]
    · rw [objHasKey_iff_lookup, objLookup_objDelete]
      simp
  · intro hnil hsp
    have hcount : ownPropCount q = 0 := by
      subst hq hnil
      simp [ownPropCount]
    have hcond : (truthy q && decide (0 < ownPropCount q)) = false := by
      simp [hcount]
    rw [Request.buildParams]
    rw [hq1]
    simp only [hcond, Bool.false_eq_true, if_false]
    rw [objHasKey_iff_lookup, objLookup_objDelete]
    have : objLookup (Request.queryOptions q opts) "searchParams" = none := by
      rw [Request.queryOptions, objLookup_objMerge,
        objLookup_eq_none_of_hasKey opts "searchParams" hsp]
      rfl
    simp [this]

theorem query_searchParams_move_witness :
    objLookup
        (Request.buildParams
          (Request.queryOptions (JSValue.obj [("a", JSValue.str "1")]) []))
        "searchParams"
      = some (JSValue.obj [("a", JSValue.str "1")]) :=
  ((query_searchParams_move (JSValue.obj [("a", JSValue.str "1")])
    [("a", JSValue.str "1")] [] rfl rfl).1 (by simp)).1

/-- C2: the header merge of `Request.request` (source lines 74–81, before
the Content-Type cleanup) merges, in increasing precedence, the computed
`Basic base64(username:key)` Authorization header, the instance default
headers, and the call-level headers: a key present at call level wins, a
key present only in the instance defaults keeps that value, and
Authorization equals the computed Basic credential unless the defaults or
the call-level headers themselves contain an Authorization key. -/
theorem request_header_merge_precedence (cfg : RequestConfig)
    (inputOptions callH : List (String × JSValue))
    (hcall : objLookup inputOptions "headers" = some (JSValue.obj callH)) (k : String) :
    (∀ v, objLookup callH k = some v →
        objLookup (Request.mergedHeaders cfg inputOptions) k = some v)
    ∧ (objLookup callH k = none → ∀ v, objLookup cfg.headers k = some v →
        objLookup (Request.mergedHeaders cfg inputOptions) k = some v)
    ∧ (objLookup callH "Authorization" = none →
        objLookup cfg.headers "Authorization" = none →
        objLookup (Request.mergedHeaders cfg inputOptions) "Authorization"
          = some (JSValue.str (Request.basicAuth cfg))) := by
  have hm : ∀ k0, objLookup (Request.mergedHeaders cfg inputOptions) k0
      = (objLookup callH k0
        <|> (objLookup cfg.headers k0
        <|> objLookup [("Authorization", JSValue.str (Request.basicAuth cfg))] k0)) := by
    intro k0
    rw [Request.mergedHeaders, hcall]
    show objLookup (objMerge (objMerge _ _) (spreadJS (JSValue.obj callH))) k0 = _
    rw [show spreadJS (JSValue.obj callH) = callH from rfl,
      objLookup_objMerge, objLookup_objMerge]
  refine ⟨?_, ?_, ?_⟩
  · intro v hv
    rw [hm k, hv]
    rfl
  · intro hnone v hv
    rw [hm k, hnone, hv]
    rfl
  · intro h1 h2
    rw [hm "Authorization", h1, h2]
    rfl

theorem request_header_merge_precedence_witness :
    objLookup
        (Request.mergedHeaders ⟨"api", "key", "u", 1000, []⟩
          [("headers", JSValue.obj [])])
        "Authorization"
      = some (JSValue.str "Basic YXBpOmtleQ==") := by
  have h := (request_header_merge_precedence ⟨"api", "key", "u", 1000, []⟩
    [("headers", JSValue.obj [])] [] rfl "Authorization").2.2 rfl rfl
  exact h.trans (by rfl)

/-- C8: after the header merge, a merged `Content-Type` value that is
absent or falsy (in particular the explicit `null` set by
`postMulti`/`putMulti`) causes the `Content-Type` key to be deleted
outright from the headers handed to the transport, so a multipart request
carries no Content-Type header from this layer; a truthy merged
`Content-Type` passes through unchanged.  The last conjunct ties
`finalHeaders` to the header entry of the option object actually handed
to the transport. -/
theorem contentType_deletion (cfg : RequestConfig) (inputOptions : List (String × JSValue)) :
    (truthy (objGetD (Request.mergedHeaders cfg inputOptions) "Content-Type") = false →
      objHasKey (Request.finalHeaders cfg inputOptions) "Content-Type" = false)
    ∧ (truthy (objGetD (Request.mergedHeaders cfg inputOptions) "Content-Type") = true →
      Request.finalHeaders cfg inputOptions = Request.mergedHeaders cfg inputOptions)
    ∧ (∀ body, objHasKey
        (Request.finalHeaders cfg (Request.postMultiOptions body)) "Content-Type" = false)
    ∧ (∀ body, objHasKey
        (Request.finalHeaders cfg (Request.putMultiOptions body)) "Content-Type" = false)
    ∧ (∀ method, objLookup (Request.kyOptions cfg method inputOptions) "headers"
        = some (JSValue.obj (Request.finalHeaders cfg inputOptions))) := by
  have hdel : ∀ io : List (String × JSValue),
      truthy (objGetD (Request.mergedHeaders cfg io) "Content-Type") = false →
      objHasKey (Request.finalHeaders cfg io) "Content-Type" = false := by
    intro io hf
    rw [Request.finalHeaders]
    simp only [hf, Bool.false_eq_true, if_false]
    rw [objHasKey_iff_lookup, objLookup_objDelete]
    simp
  have hmultiCT : ∀ body, objGetD
      (Request.mergedHeaders cfg (Request.commandOptions body Request.multiHeaderParams))
      "Content-Type" = JSValue.null := by
    intro body
    have hh : objLookup (Request.commandOptions body Request.multiHeaderParams) "headers"
        = some (JSValue.obj [("Content-Type", JSValue.null)]) := by
      rw [Request.commandOptions, Request.multiHeaderParams, objLookup_objMerge]
      rfl
    rw [Request.mergedHeaders, hh]
    show objGetD (objMerge _ (spreadJS (JSValue.obj [("Content-Type", JSValue.null)])))
      "Content-Type" = JSValue.null
    rw [show spreadJS (JSValue.obj [("Content-Type", JSValue.null)])
      = [("Content-Type", JSValue.null)] from rfl]
    rw [objGetD, objLookup_objMerge]
    rfl
  refine ⟨hdel inputOptions, ?_, ?_, ?_, ?_⟩
  · intro ht
    rw [Request.finalHeaders]
    simp only [ht, if_true]
  · intro body
    exact hdel (Request.postMultiOptions body) (by rw [Request.postMultiOptions, hmultiCT]; rfl)
  · intro body
    exact hdel (Request.putMultiOptions body) (by rw [Request.putMultiOptions, hmultiCT]; rfl)
  · intro method
    rw [Request.kyOptions, objLookup_objMerge, buildParams_lookup_headers]
    rfl

theorem contentType_deletion_witness :
    objHasKey
        (Request.finalHeaders ⟨"api", "key", "u", 1000, []⟩ []) "Content-Type" = false :=
  (contentType_deletion ⟨"api", "key", "u", 1000, []⟩ []).1 (by rfl)

/-- C10: a call-level options argument that contains a `headers` mapping
replaces `command`'s default
`{'Content-Type': 'application/x-www-form-urlencoded'}` object wholesale
rather than merging per key; in particular
`post(url, data, {headers: {'X-Foo': '1'}})` produces a request whose
call-level headers are exactly `{'X-Foo': '1'}`, so (when the instance
defaults set no Content-Type) the outgoing request carries no
Content-Type header at all after the falsy-Content-Type deletion. -/
theorem command_headers_wholesale (data : JSValue) (opts : List (String × JSValue))
    (h : JSValue) (cfg : RequestConfig) :
    (objLookup opts "headers" = some h →
      objLookup (Request.commandOptions data opts) "headers" = some h)
    ∧ (objHasKey cfg.headers "Content-Type" = false →
      objLookup (Request.commandOptions data
          [("headers", JSValue.obj [("X-Foo", JSValue.str "1")])]) "headers"
        = some (JSValue.obj [("X-Foo", JSValue.str "1")])
      ∧ objHasKey (Request.finalHeaders cfg
          (Request.commandOptions data
            [("headers", JSValue.obj [("X-Foo", JSValue.str "1")])])) "Content-Type" = false) := by
  constructor
  · intro hv
    rw [Request.commandOptions, objLookup_objMerge, hv]
    rfl
  · intro hcfg
    have hh : objLookup (Request.commandOptions data
        [("headers", JSValue.obj [("X-Foo", JSValue.str "1")])]) "headers"
        = some (JSValue.obj [("X-Foo", JSValue.str "1")]) := by
      rw [Request.commandOptions, objLookup_objMerge]
      rfl
    refine ⟨hh, ?_⟩
    have hCT : objGetD (Request.mergedHeaders cfg
        (Request.commandOptions data
          [("headers", JSValue.obj [("X-Foo", JSValue.str "1")])])) "Content-Type"
        = JSValue.undefined := by
      rw [Request.mergedHeaders, hh]
      show objGetD (objMerge _ (spreadJS (JSValue.obj [("X-Foo", JSValue.str "1")])))
        "Content-Type" = JSValue.undefined
      rw [show spreadJS (JSValue.obj [("X-Foo", JSValue.str "1")])
        = [("X-Foo", JSValue.str "1")] from rfl]
      rw [objGetD, objLookup_objMerge, objLookup_objMerge,
        objLookup_eq_none_of_hasKey cfg.headers "Content-Type" hcfg]
      rfl
    rw [Request.finalHeaders]
    simp only [hCT]
    rw [show truthy JSValue.undefined = false from rfl]
    simp only [Bool.false_eq_true, if_false]
    rw [objHasKey_iff_lookup, objLookup_objDelete]
    simp

theorem command_headers_wholesale_witness :
    objLookup
        (Request.commandOptions (JSValue.str "d")
          [("headers", JSValue.obj [("X-Foo", JSValue.str "1")])]) "headers"
      = some (JSValue.obj [("X-Foo", JSValue.str "1")]) :=
  (command_headers_wholesale (JSValue.str "d")
    [("headers", JSValue.obj [("X-Foo", JSValue.str "1")])]
    (JSValue.obj [("X-Foo", JSValue.str "1")]) ⟨"api", "key", "u", 1000, []⟩).1 rfl

/-- C3: for every attachment/inline spec (a stream handle or a structured
object, per the AttachmentSpec data model): a spec with a callable `pipe`
property is appended as the field's payload unchanged with an empty
inferred options object (no filename default injected); otherwise the
payload is the spec's `data` attribute and the inferred options contain
`filename` equal to the given filename or the literal `"file"` when the
given one is missing or falsy, `contentType` only when given and truthy,
and `knownLength` only when given and truthy.  The last conjunct is the
spec's concrete example. -/
theorem attachment_options_inference (s : JSValue) :
    (isStream s = true → attachmentPayload s = s ∧ getAttachmentOptions s = [])
    ∧ (∀ fs, s = JSValue.obj fs →
        attachmentPayload s = objGetD fs "data"
        ∧ objLookup (getAttachmentOptions s) "filename"
            = some (if truthy (objGetD fs "filename") then objGetD fs "filename"
                else JSValue.str "file")
        ∧ (truthy (objGetD fs "contentType") = true →
            objLookup (getAttachmentOptions s) "contentType" = some (objGetD fs "contentType"))
        ∧ (truthy (objGetD fs "contentType") = false →
            objHasKey (getAttachmentOptions s) "contentType" = false)
        ∧ (truthy (objGetD fs "knownLength") = true →
            objLookup (getAttachmentOptions s) "knownLength" = some (objGetD fs "knownLength"))
        ∧ (truthy (objGetD fs "knownLength") = false →
            objHasKey (getAttachmentOptions s) "knownLength" = false))
    ∧ Request.createFormData
        [("attachment",
          JSValue.obj [("data", JSValue.str "buf"), ("contentType", JSValue.str "image/png")])]
      = [("attachment", JSValue.str "buf",
          [("filename", JSValue.str "file"), ("contentType", JSValue.str "image/png")])] := by
  refine ⟨?_, ?_, by rfl⟩
  · intro hs
    cases s <;> simp_all [isStream, attachmentPayload, getAttachmentOptions, isObjectType]
  · rintro fs rfl
    have hobj : objGet (JSValue.obj fs) "filename" = objGetD fs "filename" := rfl
    refine ⟨rfl, ?_, ?_, ?_, ?_, ?_⟩ <;>
      rw [getAttachmentOptions] <;>
        simp only [isObjectType, isStream, Bool.not_true, Bool.false_or,
          Bool.or_false, if_false] <;>
          [skip; intro hct; intro hct; intro hkl; intro hkl] <;>
            cases hf : truthy (objGet (JSValue.obj fs) "filename") <;>
              cases hc : truthy (objGet (JSValue.obj fs) "contentType") <;>
                cases hk : truthy (objGet (JSValue.obj fs) "knownLength") <;>
                  simp_all [objLookup_append, objLookup_cons, objHasKey_iff_lookup, objGet, objLookup_nil]

theorem attachment_options_inference_witness :
    attachmentPayload
        (JSValue.obj [("data", JSValue.str "buf"), ("contentType", JSValue.str "image/png")])
      = JSValue.str "buf"
    ∧ objLookup
        (getAttachmentOptions
          (JSValue.obj [("data", JSValue.str "buf"), ("contentType", JSValue.str "image/png")]))
        "filename"
      = some (JSValue.str "file") := by
  have h := (attachment_options_inference
    (JSValue.obj [("data", JSValue.str "buf"), ("contentType", JSValue.str "image/png")])).2.1
    [("data", JSValue.str "buf"), ("contentType", JSValue.str "image/png")] rfl
  exact ⟨h.1.trans rfl, (h.2.1).trans (by rfl)⟩

/-- C4 counterexample: the claim says every truthy-valued key contributes
a field, but an empty array is truthy in JavaScript and contributes no
field at all: `createFormData({tags: []})` yields an empty multipart
body. -/
theorem createFormData_truthy_empty_array_cex :
    truthy (JSValue.arr []) = true
      ∧ Request.createFormData [("tags", JSValue.arr [])] = [] :=
  ⟨rfl, rfl⟩

/-- C4 (amended): every key whose value is falsy contributes no field at
all to the multipart body; a truthy-valued key contributes one field per
element when its value is an array (hence none for an empty array) and
exactly one field, under its own name, otherwise; in particular
`createFormData({tags: ['a','b'], empty: '', skip: null})` produces
exactly the two `tags` fields, in order, and no `empty` or `skip`
field. -/
theorem createFormData_falsy_drop (data : List (String × JSValue)) (k : String) (v : JSValue) :
    (truthy v = false →
      Request.createFormData (data ++ [(k, v)]) = Request.createFormData data)
    ∧ (truthy v = true → ∀ items, v = JSValue.arr items →
        (Request.createFormData (data ++ [(k, v)])).length
          = (Request.createFormData data).length + items.length)
    ∧ (truthy v = true → (∀ items, v ≠ JSValue.arr items) →
        ∃ e : FormEntry, Request.createFormData (data ++ [(k, v)])
          = Request.createFormData data ++ [e] ∧ e.1 = k)
    ∧ Request.createFormData
        [("tags", JSValue.arr [JSValue.str "a", JSValue.str "b"]),
         ("empty", JSValue.str ""), ("skip", JSValue.null)]
      = [("tags", JSValue.str "a", []), ("tags", JSValue.str "b", [])] := by
  refine ⟨?_, ?_, ?_, by rfl⟩
  · intro hf
    rw [createFormData_append_single]
    simp [hf]
  · rintro ht items rfl
    rw [createFormData_append_single]
    simp only [ht, if_true]
    rw [Request.formEntriesFor]
    cases hres : (k == "attachment" || k == "inline") <;> simp [hres]
  · intro ht hnarr
    rw [createFormData_append_single]
    simp only [ht, if_true]
    rw [Request.formEntriesFor]
    have hnn : isNullish v = false := truthy_not_nullish v ht
    cases hres : (k == "attachment" || k == "inline") <;>
      cases v <;>
        first
          | exact absurd rfl (hnarr _)
          | exact ⟨_, by simp [hres, hnn], rfl⟩
          | simp_all [isNullish]

theorem createFormData_falsy_drop_witness :
    Request.createFormData ([("a", JSValue.str "x")] ++ [("b", JSValue.str "")])
      = Request.createFormData [("a", JSValue.str "x")] :=
  (createFormData_falsy_drop [("a", JSValue.str "x")] "b" (JSValue.str "")).1 rfl

/-- C7: a non-reserved key whose truthy value is an array appends exactly
one multipart field per array element, all under that key name and in
array order; an array under the reserved keys `attachment`/`inline`
likewise appends one field per spec under the reserved name
(repeated-name semantics). -/
theorem createFormData_array_repeated_fields (k : String) (items : List JSValue)
    (data : List (String × JSValue)) :
    (k ≠ "attachment" → k ≠ "inline" →
      Request.createFormData (data ++ [(k, JSValue.arr items)])
        = Request.createFormData data
          ++ items.map (fun item => (k, item, ([] : List (String × JSValue)))))
    ∧ Request.createFormData (data ++ [("attachment", JSValue.arr items)])
        = Request.createFormData data
          ++ items.map (fun item =>
              ("attachment", attachmentPayload item, getAttachmentOptions item))
    ∧ Request.createFormData (data ++ [("inline", JSValue.arr items)])
        = Request.createFormData data
          ++ items.map (fun item =>
              ("inline", attachmentPayload item, getAttachmentOptions item)) := by
  refine ⟨?_, ?_, ?_⟩
  · intro h1 h2
    rw [createFormData_append_single]
    have hres : (k == "attachment" || k == "inline") = false := by simp [h1, h2]
    simp [Request.formEntriesFor, hres, truthy]
  · rw [createFormData_append_single]
    simp [Request.formEntriesFor, truthy]
  · rw [createFormData_append_single]
    simp [Request.formEntriesFor, truthy]

theorem createFormData_array_repeated_fields_witness :
    Request.createFormData [("tags", JSValue.arr [JSValue.str "a", JSValue.str "b"])]
      = [("tags", JSValue.str "a", []), ("tags", JSValue.str "b", [])] := by
  have h := (createFormData_array_repeated_fields "tags"
    [JSValue.str "a", JSValue.str "b"] []).1 (by decide) (by decide)
  simpa using h

/-- C1: for every transport response: if the `ok` flag is false, the call
rejects with a structured error carrying the response's status,
statusText, and a message that is the decoded concatenation of all body
chunks when the body is a stream (duck-typed by a callable `pipe`), and
otherwise the entire parsed JSON body; if `ok` is true, the call resolves
to `{ status, body: parsed JSON }`. -/
theorem request_response_normalization (r : TransportResponse) :
    (r.ok = true →
      Request.handleResponse r = Except.ok ⟨r.status, r.json⟩)
    ∧ (r.ok = false → isStream r.body = true →
      Request.handleResponse r
        = Except.error ⟨r.status, r.statusText,
            JSValue.str (streamToString (streamChunks r.body))⟩)
    ∧ (r.ok = false → isStream r.body = false →
      Request.handleResponse r
        = Except.error ⟨r.status, r.statusText, r.json⟩) := by
  refine ⟨?_, ?_, ?_⟩
  · intro hok
    simp [Request.handleResponse, hok]
  · intro hok hs
    have ht : truthy r.body = true := by
      cases hb : r.body <;> simp_all [isStream, truthy]
    simp [Request.handleResponse, hok, hs, ht]
  · intro hok hs
    simp [Request.handleResponse, hok, hs]

theorem request_response_normalization_witness :
    Request.handleResponse
        ⟨false, 400, "Bad Request", JSValue.stream ["ab", "cd"], JSValue.null⟩
      = Except.error ⟨400, "Bad Request", JSValue.str "abcd"⟩ := by
  have h := (request_response_normalization
    ⟨false, 400, "Bad Request", JSValue.stream ["ab", "cd"], JSValue.null⟩).2.1 rfl rfl
  exact h.trans rfl

/-- The heap `h` extends `h0` only with fresh objects: its allocation
frontier is no lower and every pre-existing address keeps its contents. -/
def FreshOnly (h0 h : Heap) : Prop :=
  h0.next ≤ h.next ∧ ∀ a, a < h0.next → h.mem a = h0.mem a

theorem freshOnly_refl (h : Heap) : FreshOnly h h :=
  ⟨Nat.le_refl _, fun _ _ => rfl⟩

theorem freshOnly_alloc {h0 h : Heap} {fs : List (String × HVal)} (hf : FreshOnly h0 h) :
    FreshOnly h0 ((h.alloc fs).2) := by
  refine ⟨?_, ?_⟩
  · exact Nat.le_succ_of_le hf.1
  · intro a ha
    have hne : ¬ a = h.next := by
      have := hf.1
      omega
    show (if a = h.next then some fs else h.mem a) = h0.mem a
    rw [if_neg hne]
    exact hf.2 a ha

theorem freshOnly_write_ge {h0 h : Heap} {addr : Nat} {fs : List (String × HVal)}
    (hf : FreshOnly h0 h) (haddr : h0.next ≤ addr) : FreshOnly h0 (h.write addr fs) := by
  refine ⟨hf.1, ?_⟩
  intro a ha
  have hne : ¬ a = addr := by omega
  show (if a = addr then some fs else h.mem a) = h0.mem a
  rw [if_neg hne]
  exact hf.2 a ha

theorem le_alloc_fst {h0 h : Heap} {fs : List (String × HVal)} (hf : FreshOnly h0 h) :
    h0.next ≤ (h.alloc fs).1 :=
  hf.1

/-- C9: the option-preparation phase of `Request.request` never mutates
the caller-supplied options object, any object it references, or the
instance configuration: every store targets one of the three freshly
allocated objects (the copied bag, the merged headers, the second copied
bag), so every heap object that existed before the call — in particular
the object at `inputAddr` with all its top-level keys, and the object
`this.headers` may reference — is unchanged in the final heap.  The
scalar fields `username`, `key`, `url` and `timeout` are immutable
parameters of the model, as the source never assigns to `this`. -/
theorem requestPrepare_no_mutation (h0 : Heap) (cfgHeaders : HVal) (inputAddr : Nat)
    (auth : HVal) (a : Nat) (ha : a < h0.next) :
    ((Request.requestPrepare h0 cfgHeaders inputAddr auth).2.2).mem a = h0.mem a := by
  unfold Request.requestPrepare
  dsimp only
  have main : ∀ h : Heap, FreshOnly h0 h → h.mem a = h0.mem a := fun h hf => hf.2 a ha
  apply main
  repeat
    first
      | exact freshOnly_refl h0
      | apply freshOnly_alloc
      | apply freshOnly_write_ge
      | apply le_alloc_fst
      | split

theorem requestPrepare_no_mutation_witness :
    ((Request.requestPrepare
        ⟨1, fun a => if a = 0 then some [("x", HVal.prim (JSValue.str "1"))] else none⟩
        (HVal.ref 0) 0 (HVal.prim (JSValue.str "B"))).2.2).mem 0
      = (⟨1, fun a => if a = 0 then some [("x", HVal.prim (JSValue.str "1"))] else none⟩
          : Heap).mem 0 :=
  requestPrepare_no_mutation
    ⟨1, fun a => if a = 0 then some [("x", HVal.prim (JSValue.str "1"))] else none⟩
    (HVal.ref 0) 0 (HVal.prim (JSValue.str "B")) 0 (by decide)
